import Mathlib

/-!
Shallow embedding of the booking blueprint of the ZYRA travel application
(`src/bookings.py`), together with proofs about the booking session manager:
step saving, total recomputation, confirmation, payment capture and
cancellation.

Python floats are modelled as exact rationals (`ℚ`), `round(x, 2)` as
round-half-to-even at two decimals, `int(x)` as truncation toward zero, and
JSON payloads as the inductive type `JVal`.  The persistent store is a map
from booking ids to bookings plus a list of payment rows; `db.session.commit`
points in the code correspond to the places where an operation writes back
into the store, and uncommitted attribute mutations are discarded, matching
the request-scoped session semantics of the web framework.
-/

namespace Zyra

/-- JSON-like values carried in request payloads and stored in the JSON
columns of a booking (`search_data`, `selection_data`, ...). -/
inductive JVal where
  | null : JVal
  | bool  (b : Bool) : JVal
  | num  (q : ℚ) : JVal
  | str  (s : String) : JVal
  | arr  (xs : List JVal) : JVal
  | obj  (kvs : List (String × JVal)) : JVal

/-- Python truthiness of a JSON value (`bool(v)`). -/
def truthy : JVal → Bool
  | .null => false
  | .bool b => b
  | .num q => q != 0
  | .str s => s != ""
  | .arr xs => !xs.isEmpty
  | .obj kvs => !kvs.isEmpty

/-- Accumulate decimal digits into a natural number; fails on a non-digit. -/
def digitsToNat (cs : List Char) : Option ℕ :=
  cs.foldl
    (fun acc c =>
      acc.bind (fun n => if c.isDigit then some (10 * n + (c.toNat - 48)) else none))
    (some 0)

/-- Model of the Python builtin `float(s)` on strings, restricted to plain
decimal literals (optional sign, digits, optional fractional part, optional
surrounding whitespace).  Exotic accepted spellings (exponents, `inf`, `nan`,
underscores) are outside the model; no theorem below depends on them. -/
def parseFloat (s : String) : Option ℚ :=
  let cs := s.trim.toList
  let signed : ℚ × List Char :=
    match cs with
    | '-' :: rest => (-1, rest)
    | '+' :: rest => (1, rest)
    | _ => (1, cs)
  match (signed.2).splitOn '.' with
  | [ip] =>
      match digitsToNat ip with
      | some n => if ip.isEmpty then none else some (signed.1 * n)
      | none => none
  | [ip, fp] =>
      if ip.isEmpty && fp.isEmpty then none
      else
        match digitsToNat ip, digitsToNat fp with
        | some n, some f =>
            some (signed.1 * ((n : ℚ) + (f : ℚ) / ((10 : ℚ) ^ fp.length)))
        | _, _ => none
  | _ => none

/-- Model of the Python builtin `float(v)` on a JSON value: numbers pass
through, booleans coerce (`float(True) = 1.0`), strings are parsed, and
`None`/lists/dicts raise (`none`). -/
def floatOfVal : JVal → Option ℚ
  | .num q => some q
  | .bool b => some (if b then 1 else 0)
  | .str s => parseFloat s
  | .null => none
  | .arr _ => none
  | .obj _ => none

/-- Model of the expression `float(v or 0)` used by `_recompute_total`:
a falsy value short-circuits to `0`, everything else goes through `float`. -/
def floatOrZero (v : JVal) : Option ℚ :=
  if truthy v then floatOfVal v else some 0

/-- Round a rational to the nearest integer, ties to the even integer
(the rounding rule of Python's builtin `round`). -/
def roundHalfEven (q : ℚ) : ℤ :=
  let f := ⌊q⌋
  let r := q - (f : ℚ)
  if r < 1 / 2 then f
  else if 1 / 2 < r then f + 1
  else if f % 2 = 0 then f else f + 1

/-- Model of Python `round(x, 2)` under exact decimal arithmetic: round
half-to-even at two decimal places, yielding an exact multiple of `1 / 100`.
The source operates on binary64 doubles, whose values are dyadic and
generally not multiples of `1 / 100`; where that gap is observable — the
minor-unit conversion `int(total * 100)` — the binary64 grid is modelled
explicitly by `flAt` below. -/
def round2 (q : ℚ) : ℚ :=
  ((roundHalfEven (q * 100) : ℚ)) / 100

/-- Model of Python `int(x)` on a float: truncation toward zero. -/
def pyInt (q : ℚ) : ℤ :=
  if 0 ≤ q then ⌊q⌋ else - ⌊-q⌋

/-- Binary64 rounding at a known grid scale: the doubles whose unit in the
last place is `2 ^ (- e)` form the grid `m / 2 ^ e`, and IEEE-754
round-to-nearest, ties-to-even sends a real to the nearest grid point.
For a positive value in the binade `[2 ^ k, 2 ^ (k + 1))` with `k ≤ 52` the
scale is `e = 52 - k`. -/
def flAt (e : ℕ) (q : ℚ) : ℚ :=
  ((roundHalfEven (q * 2 ^ e) : ℤ) : ℚ) / 2 ^ e

/-- First value stored under key `k` (Python `dict.get`; the embedding keeps
association lists with distinct keys). -/
def lookupKey (k : String) : List (String × JVal) → Option JVal
  | [] => none
  | (k2, v) :: rest => if k2 = k then some v else lookupKey k rest

/-- Model of the pattern `x or {}` applied to an optional JSON column:
a missing or falsy value is replaced by the empty dict. -/
def orEmptyDict (d : Option JVal) : JVal :=
  match d with
  | some v => if truthy v then v else .obj []
  | none => .obj []

/-- Contribution of `selection_data` to the total: the body of the
`try: total += float(sel.get('price', 0) or 0) except: pass` block.
A non-dict selection raises at `sel.get` and contributes nothing; a
non-convertible price raises at `float` and contributes nothing. -/
def priceContrib (sd : Option JVal) : ℚ :=
  match orEmptyDict sd with
  | .obj kvs =>
      match floatOrZero ((lookupKey ("price") kvs).getD (.num 0)) with
      | some q => q
      | none => 0
  | _ => 0

/-- Sum of `float(v or 0)` over dict values, skipping entries whose
conversion raises (`except Exception: continue`). -/
def sumVals : List (String × JVal) → ℚ
  | [] => 0
  | (_, v) :: rest => (floatOrZero v).getD 0 + sumVals rest

/-- Contribution of `addons_data` to the total: the
`if isinstance(addons, dict): for v in addons.values(): ...` loop.
A non-dict add-ons structure is skipped entirely. -/
def addonsContrib (ad : Option JVal) : ℚ :=
  match orEmptyDict ad with
  | .obj kvs => sumVals kvs
  | _ => 0

/-- Booking lifecycle status (`booking.status` strings of the code). -/
inductive BStatus where
  | draft : BStatus
  | in_progress : BStatus
  | confirmed : BStatus
  | cancelled : BStatus
deriving DecidableEq, Repr

/-- A booking row.  The five data slots are the JSON columns written by the
wizard steps; `total_amount` is the derived total; `user_id` is the optional
owner. -/
structure Booking where
  id : ℕ
  user_id : Option ℕ
  search_data : Option JVal
  selection_data : Option JVal
  travelers_data : Option JVal
  addons_data : Option JVal
  review_data : Option JVal
  total_amount : ℚ
  status : BStatus

/-- `_recompute_total`: rebuild `total_amount` from the current selection and
add-on data and round to two decimals. -/
def recompute_total (b : Booking) : Booking :=
  let total : ℚ := 0
  let total := total + priceContrib b.selection_data
  let total := total + addonsContrib b.addons_data
  { b with total_amount := round2 total }

/-- `STEP_TO_PAGE`: the fixed step-to-page lookup table. -/
def STEP_TO_PAGE : ℕ → Option String
  | 0 => some ("booking1.html")
  | 1 => some ("booking2.html")
  | 2 => some ("booking3.html")
  | 3 => some ("booking4.html")
  | 4 => some ("checkout.html")
  | _ => none

/-- `_next_url_for_step`: the next-page hint, carrying the booking id as a
query parameter; `none` when the table has no entry for the step. -/
def next_url_for_step (step : ℕ) (booking_id : ℕ) : Option String :=
  (STEP_TO_PAGE step).map
    (fun page => "/" ++ page ++ "?booking_id=" ++ toString booking_id)

/-- A payment row (one per successful charge). -/
structure Payment where
  pid : ℕ
  booking_id : ℕ
  amount : ℚ
  pstatus : String
  provider : String
  txn_ref : String
deriving DecidableEq, Repr

/-- The persistent store: bookings addressed by id, the list of payment rows
in insertion order, and the auto-increment counters of the two tables. -/
@[ext] structure Store where
  bookings : ℕ → Option Booking
  payments : List Payment
  nextId : ℕ
  nextPaymentId : ℕ

/-- Write (or overwrite) the booking stored under id `i`. -/
def upd (f : ℕ → Option Booking) (i : ℕ) (b : Booking) : ℕ → Option Booking :=
  fun j => if j = i then some b else f j

/-- Modelled from the spec: the column defaults of the `Booking` model
(absent from the provided sources) — a fresh booking starts as a `draft`
with all five data slots empty and a zero total; `user_id` is the creator
passed by `_get_or_create_booking`. -/
def Booking.new (i : ℕ) (u : Option ℕ) : Booking :=
  { id := i
    user_id := u
    search_data := none
    selection_data := none
    travelers_data := none
    addons_data := none
    review_data := none
    total_amount := 0
    status := .draft }

/-- Python truthiness of the optional `booking_id` payload field
(`if booking_id:`): present and non-zero. -/
def truthyId : Option ℕ → Bool
  | none => false
  | some n => n != 0

/-- `_get_or_create_booking`: a truthy id is looked up (`none` models the
404 abort); otherwise a fresh draft bound to the current user (if any) is
created and committed. -/
def get_or_create (u : Option ℕ) (st : Store) (bid : Option ℕ) :
    Option (Store × Booking) :=
  if truthyId bid then
    match bid.bind st.bookings with
    | some b => some (st, b)
    | none => none
  else
    let b := Booking.new st.nextId u
    some ({ st with bookings := upd st.bookings st.nextId b, nextId := st.nextId + 1 }, b)

/-- `_attach_to_current_user_if_needed`: for an authenticated caller, bind an
unbound booking to the caller (committing the write), then enforce ownership.
Returns the possibly updated store and booking and whether the ownership
check passed; anonymous callers always pass. -/
def attach_to_user (u : Option ℕ) (st : Store) (b : Booking) :
    Store × Booking × Bool :=
  match u with
  | none => (st, b, true)
  | some uid =>
      if b.user_id.isNone then
        let b2 := { b with user_id := some uid }
        ({ st with bookings := upd st.bookings b2.id b2 }, b2, true)
      else
        (st, b, b.user_id == some uid)

/-- Write the payload into the slot selected by `step` (the `if`/`elif`
chain of `save_step`); `none` models the invalid-step branch. -/
def writeSlot (step : ℕ) (b : Booking) (d : Option JVal) : Option Booking :=
  if step = 0 then some { b with search_data := d }
  else if step = 1 then some { b with selection_data := d }
  else if step = 2 then some { b with travelers_data := d }
  else if step = 3 then some { b with addons_data := d }
  else if step = 4 then some { b with review_data := d }
  else none

/-- Outcome of the `save_step` endpoint. -/
inductive StepResult where
  | ok (booking_id : ℕ) (total : ℚ) (next_url : Option String)
  | invalidStep
  | forbidden
  | notFound
deriving DecidableEq, Repr

/-- `save_step` endpoint: get or create the booking, attach/enforce
ownership, write the addressed slot, recompute the total, commit, and answer
with id, total and next-page hint. -/
def save_step (u : Option ℕ) (step : ℕ) (bid : Option ℕ) (data : Option JVal)
    (st : Store) : Store × StepResult :=
  match get_or_create u st bid with
  | none => (st, .notFound)
  | some (st1, b) =>
      let a := attach_to_user u st1 b
      if !a.2.2 then (a.1, .forbidden)
      else
        match writeSlot step a.2.1 data with
        | none => (a.1, .invalidStep)
        | some b3 =>
            let b4 := recompute_total b3
            ({ a.1 with bookings := upd a.1.bookings b4.id b4 },
             .ok b4.id b4.total_amount (next_url_for_step step b4.id))

/-- Outcome of the `confirm` endpoint. -/
inductive ConfirmResult where
  | ok (booking_id : ℕ) (total : ℚ) (next_url : String)
  | forbidden
  | notFound
deriving DecidableEq, Repr

/-- `confirm` endpoint (`confirm_booking`): look up the booking, attach or
enforce ownership, set the status to `in_progress`, recompute the total,
commit, and answer with id, total and the checkout hint. -/
def confirm_booking (u : ℕ) (bid : Option ℕ) (st : Store) :
    Store × ConfirmResult :=
  match bid.bind st.bookings with
  | none => (st, .notFound)
  | some b =>
      let a := attach_to_user (some u) st b
      if !a.2.2 then (a.1, .forbidden)
      else
        let b2 := recompute_total { a.2.1 with status := .in_progress }
        ({ a.1 with bookings := upd a.1.bookings b2.id b2 },
         .ok b2.id b2.total_amount ("/checkout.html?booking_id=" ++ toString b2.id))

/-- A payment-processor intent as seen by the blueprint: provider id,
lifecycle status string, and charged amount in minor units. -/
structure Intent where
  iid : String
  istatus : String
  amount : ℤ
  client_secret : String
deriving DecidableEq, Repr

/-- Outcome of the `create-payment-intent` endpoint. -/
inductive IntentResult where
  | ok (clientSecret : String) (paymentIntentId : String)
  | providerError (msg : String)
  | forbidden
  | notFound
deriving DecidableEq, Repr

/-- `create-payment-intent` endpoint: look up the booking, attach or enforce
ownership, recompute the total (without committing it), and ask the
processor for an intent over `int(total * 100)` minor units; processor
failures surface as provider errors. -/
def create_payment_intent (u : ℕ) (bid : Option ℕ)
    (create : ℤ → Except String Intent) (st : Store) : Store × IntentResult :=
  match bid.bind st.bookings with
  | none => (st, .notFound)
  | some b =>
      let a := attach_to_user (some u) st b
      if !a.2.2 then (a.1, .forbidden)
      else
        let b2 := recompute_total a.2.1
        match create (pyInt (b2.total_amount * 100)) with
        | .ok intent => (a.1, .ok intent.client_secret intent.iid)
        | .error e => (a.1, .providerError e)

/-- Outcome of the `pay` endpoint. -/
inductive PayResult where
  | ok (payment_id : ℕ) (txn_ref : String) (booking_id : ℕ) (next_url : String)
  | notReady
  | paymentFailed
  | amountMismatch
  | providerError (msg : String)
  | forbidden
  | notFound
deriving DecidableEq, Repr

/-- `pay` endpoint (`confirm_payment`): look up the booking, attach or
enforce ownership, recompute the total, retrieve the intent (confirming it
when it still requires confirmation), and on a succeeded intent with a
matching minor-unit amount record a success `Payment` row, mark the booking
`confirmed` and commit.  Failure branches commit nothing beyond the
ownership attach. -/
def pay (u : ℕ) (bid : Option ℕ) (intentId : String)
    (retrieve : String → Except String Intent)
    (confirmIntent : String → Except String Intent)
    (st : Store) : Store × PayResult :=
  match bid.bind st.bookings with
  | none => (st, .notFound)
  | some b =>
      let a := attach_to_user (some u) st b
      if !a.2.2 then (a.1, .forbidden)
      else
        let b2 := recompute_total a.2.1
        match retrieve intentId with
        | .error e => (a.1, .providerError e)
        | .ok intent0 =>
            let st2 : Except String (Option Intent) :=
              if intent0.istatus == "requires_confirmation" then
                (confirmIntent intentId).map some
              else if intent0.istatus == "succeeded" then .ok (some intent0)
              else .ok none
            match st2 with
            | .error e => (a.1, .providerError e)
            | .ok none => (a.1, .notReady)
            | .ok (some intent) =>
                if intent.istatus != "succeeded" then (a.1, .paymentFailed)
                else if intent.amount != pyInt (b2.total_amount * 100) then
                  (a.1, .amountMismatch)
                else
                  let p : Payment :=
                    { pid := a.1.nextPaymentId
                      booking_id := b2.id
                      amount := b2.total_amount
                      pstatus := "success"
                      provider := "stripe"
                      txn_ref := intent.iid }
                  let b3 := { b2 with status := .confirmed }
                  ({ a.1 with
                      bookings := upd a.1.bookings b3.id b3
                      payments := a.1.payments ++ [p]
                      nextPaymentId := a.1.nextPaymentId + 1 },
                   .ok p.pid p.txn_ref b3.id
                     ("/dashboard.html?booking_id=" ++ toString b3.id))

/-- Outcome of the `cancel` endpoint. -/
inductive CancelResult where
  | ok (booking_id : ℕ)
  | forbidden
  | notFound
deriving DecidableEq, Repr

/-- `cancel` endpoint: look up the booking, attach or enforce ownership, and
unconditionally set the status to `cancelled`. -/
def cancel (u : ℕ) (bid : Option ℕ) (st : Store) : Store × CancelResult :=
  match bid.bind st.bookings with
  | none => (st, .notFound)
  | some b =>
      let a := attach_to_user (some u) st b
      if !a.2.2 then (a.1, .forbidden)
      else
        let b2 := { a.2.1 with status := BStatus.cancelled }
        ({ a.1 with bookings := upd a.1.bookings b2.id b2 }, .ok b2.id)

/-- Status of the booking stored under id `i`. -/
def statusAt (st : Store) (i : ℕ) : Option BStatus :=
  (st.bookings i).map Booking.status

/-- The data slot of a booking addressed by a wizard step. -/
def slotOf (step : ℕ) (b : Booking) : Option JVal :=
  if step = 0 then b.search_data
  else if step = 1 then b.selection_data
  else if step = 2 then b.travelers_data
  else if step = 3 then b.addons_data
  else b.review_data

/-! ### Specification-side total

The recomputation rule as the specification words it: the selection's price
plus the sum of the convertible add-on values, rounded to two decimals,
with a missing price, a non-mapping add-ons structure and every
non-convertible value contributing zero. -/

/-- Price named by the specification: the `price` entry of the selection
mapping when present and convertible, `0` otherwise. -/
def claimPrice : Option JVal → ℚ
  | some (.obj kvs) =>
      match lookupKey ("price") kvs with
      | some v => (floatOrZero v).getD 0
      | none => 0
  | _ => 0

/-- Add-on sum named by the specification: the sum of the convertible values
of the add-ons mapping, `0` for a missing or non-mapping structure. -/
def claimAddons : Option JVal → ℚ
  | some (.obj kvs) => sumVals kvs
  | _ => 0

/-- The total stipulated by the specification:
`round(selection.price + sum(addon values), 2)`. -/
def claimTotal (sel addons : Option JVal) : ℚ :=
  round2 (claimPrice sel + claimAddons addons)

/-! ### Helper lemmas -/

lemma priceContrib_eq_claimPrice (sd : Option JVal) :
    priceContrib sd = claimPrice sd := by
  rcases sd with _ | v
  · rfl
  · cases v with
    | obj kvs =>
        cases kvs with
        | nil => rfl
        | cons hd tl =>
            simp only [priceContrib, claimPrice, orEmptyDict, truthy, List.isEmpty]
            cases h : lookupKey ("price") (hd :: tl) with
            | none => simp [h, floatOrZero, truthy, floatOfVal]
            | some v => simp [h]; cases floatOrZero v <;> rfl
    | null => rfl
    | bool b => cases b <;> rfl
    | num q =>
        simp only [priceContrib, claimPrice, orEmptyDict, truthy]
        by_cases h : q = 0 <;> simp [h, lookupKey, floatOrZero, truthy, floatOfVal]
    | str s =>
        simp only [priceContrib, claimPrice, orEmptyDict, truthy]
        by_cases h : s = "" <;> simp [h, lookupKey, floatOrZero, truthy, floatOfVal]
    | arr xs => cases xs <;> rfl

lemma addonsContrib_eq_claimAddons (ad : Option JVal) :
    addonsContrib ad = claimAddons ad := by
  rcases ad with _ | v
  · rfl
  · cases v with
    | obj kvs => cases kvs <;> rfl
    | null => rfl
    | bool b => cases b <;> rfl
    | num q =>
        simp only [addonsContrib, claimAddons, orEmptyDict, truthy]
        by_cases h : q = 0 <;> simp [h, sumVals]
    | str s =>
        simp only [addonsContrib, claimAddons, orEmptyDict, truthy]
        by_cases h : s = "" <;> simp [h, sumVals]
    | arr xs => cases xs <;> rfl

@[simp] lemma recompute_id (b : Booking) : (recompute_total b).id = b.id := rfl
@[simp] lemma recompute_user (b : Booking) :
    (recompute_total b).user_id = b.user_id := rfl
@[simp] lemma recompute_search (b : Booking) :
    (recompute_total b).search_data = b.search_data := rfl
@[simp] lemma recompute_sel (b : Booking) :
    (recompute_total b).selection_data = b.selection_data := rfl
@[simp] lemma recompute_trav (b : Booking) :
    (recompute_total b).travelers_data = b.travelers_data := rfl
@[simp] lemma recompute_addons (b : Booking) :
    (recompute_total b).addons_data = b.addons_data := rfl
@[simp] lemma recompute_review (b : Booking) :
    (recompute_total b).review_data = b.review_data := rfl
@[simp] lemma recompute_status (b : Booking) :
    (recompute_total b).status = b.status := rfl

/-- The recomputed total is exactly the specification's total of the current
selection and add-on data. -/
lemma recompute_total_amount (b : Booking) :
    (recompute_total b).total_amount
      = claimTotal b.selection_data b.addons_data := by
  simp [recompute_total, claimTotal, priceContrib_eq_claimPrice,
    addonsContrib_eq_claimAddons]

lemma attach_anon (st : Store) (b : Booking) :
    attach_to_user none st b = (st, b, true) := rfl

lemma attach_unowned (uid : ℕ) (st : Store) (b : Booking)
    (h : b.user_id = none) :
    attach_to_user (some uid) st b
      = ({ st with bookings := upd st.bookings b.id { b with user_id := some uid } },
         { b with user_id := some uid }, true) := by
  simp [attach_to_user, h]

lemma attach_owned (uid a : ℕ) (st : Store) (b : Booking)
    (h : b.user_id = some a) :
    attach_to_user (some uid) st b = (st, b, a == uid) := by
  simp [attach_to_user, h]

/-- The empty store used by the concrete witnesses below. -/
def st0 : Store :=
  { bookings := fun _ => none, payments := [], nextId := 1, nextPaymentId := 1 }

/-! ### C1 — totals recomputed by `save_step` -/

/-- **C1.** For every step/data combination on which `save_step` succeeds,
the booking it persists has `total_amount` equal to
`round(selection.price + sum of addon values, 2)` — missing price,
non-mapping add-ons and non-convertible values contributing `0` — and the
returned total is that persisted total.  The recomputation is a total
function of the stored data, so it never fails, whatever the payload shape. -/
theorem c1_save_step_total (u : Option ℕ) (step : ℕ) (bid : Option ℕ)
    (data : Option JVal) (st : Store) (i : ℕ) (t : ℚ) (url : Option String)
    (h : (save_step u step bid data st).2 = .ok i t url) :
    ∃ b2, (save_step u step bid data st).1.bookings i = some b2 ∧
      b2.total_amount = t ∧
      t = claimTotal b2.selection_data b2.addons_data := by
  rcases e : save_step u step bid data st with ⟨st2, r⟩
  rw [e] at h
  simp only at h
  subst h
  unfold save_step at e
  cases hg : get_or_create u st bid with
  | none => rw [hg] at e; simp at e
  | some p =>
      obtain ⟨st1, b⟩ := p
      rw [hg] at e
      by_cases hok : (attach_to_user u st1 b).2.2
      · simp only [hok, Bool.not_true, Bool.false_eq_true, if_false] at e
        cases hw : writeSlot step (attach_to_user u st1 b).2.1 data with
        | none => rw [hw] at e; simp at e
        | some b3 =>
            rw [hw] at e
            simp only [Prod.mk.injEq, StepResult.ok.injEq] at e
            obtain ⟨est, eid, et, eurl⟩ := e
            refine ⟨recompute_total b3, ?_, ?_, ?_⟩
            · rw [← est, ← eid]; simp [upd]
            · exact et
            · rw [← et]
              simp [recompute_total_amount]
      · simp only [hok, Bool.not_false, if_true] at e
        simp at e

/-- Witness for C1: saving step 1 with a price of 500 on a fresh booking
persists and returns the total 500. -/
theorem c1_witness :
    ∃ b2,
      (save_step none 1 none (some (.obj [(("price"), .num 500)])) st0).1.bookings 1
          = some b2 ∧
        b2.total_amount = 500 ∧
        (500 : ℚ) = claimTotal b2.selection_data b2.addons_data :=
  c1_save_step_total none 1 none (some (.obj [(("price"), .num 500)])) st0 1 500
    (some ("/booking2.html?booking_id=1"))
    (by
      norm_num [save_step, get_or_create, truthyId, attach_to_user, writeSlot, upd,
        recompute_total, priceContrib, addonsContrib, orEmptyDict, truthy, lookupKey,
        floatOrZero, floatOfVal, sumVals, round2, roundHalfEven, next_url_for_step,
        STEP_TO_PAGE, st0, Booking.new]
      rfl)

/-! ### C5 — next-page hints -/

lemma writeSlot_step_le (step : ℕ) (b b2 : Booking) (d : Option JVal)
    (h : writeSlot step b d = some b2) : step ≤ 4 := by
  unfold writeSlot at h
  split_ifs at h with h0 h1 h2 h3 h4 <;> omega

/-- Counterexample to C5 as stated: saving step 4 (the review step) on a
fresh booking succeeds and returns the hint `/checkout.html?booking_id=1`,
not an absent hint — `STEP_TO_PAGE` has an entry for step 4. -/
theorem c5_counterexample :
    (save_step none 4 none (some (.num 1)) st0).2
        = .ok 1 0 (some ("/checkout.html?booking_id=1")) ∧
      (some ("/checkout.html?booking_id=1") : Option String) ≠ none := by
  constructor
  · norm_num [save_step, get_or_create, truthyId, attach_to_user, writeSlot, upd,
      recompute_total, priceContrib, addonsContrib, orEmptyDict, truthy, lookupKey,
      floatOrZero, floatOfVal, sumVals, round2, roundHalfEven, next_url_for_step,
      STEP_TO_PAGE, st0, Booking.new]
    rfl
  · simp

/-- **C5 (amended).** For every in-range step 0–4, a successful `save_step`
returns the booking id, the newly recomputed total, and a next-page hint
drawn from the fixed lookup table keyed by step; every step 0–4 yields a
hint (step 4's hint is the checkout page), and no out-of-range step
succeeds. -/
theorem c5_next_hint (u : Option ℕ) (step : ℕ) (bid : Option ℕ)
    (data : Option JVal) (st : Store) (i : ℕ) (t : ℚ) (url : Option String)
    (h : (save_step u step bid data st).2 = .ok i t url) :
    step ≤ 4 ∧
      url = next_url_for_step step i ∧ url.isSome ∧
      ∃ b2, (save_step u step bid data st).1.bookings i = some b2 ∧
        b2.id = i ∧ b2.total_amount = t := by
  rcases e : save_step u step bid data st with ⟨st2, r⟩
  rw [e] at h
  simp only at h
  subst h
  unfold save_step at e
  cases hg : get_or_create u st bid with
  | none => rw [hg] at e; simp at e
  | some p =>
      obtain ⟨st1, b⟩ := p
      rw [hg] at e
      by_cases hok : (attach_to_user u st1 b).2.2
      · simp only [hok, Bool.not_true, Bool.false_eq_true, if_false] at e
        cases hw : writeSlot step (attach_to_user u st1 b).2.1 data with
        | none => rw [hw] at e; simp at e
        | some b3 =>
            rw [hw] at e
            simp only [Prod.mk.injEq, StepResult.ok.injEq] at e
            obtain ⟨est, eid, et, eurl⟩ := e
            have hle : step ≤ 4 := writeSlot_step_le step _ b3 data hw
            refine ⟨hle, ?_, ?_, recompute_total b3, ?_, ?_, et⟩
            · rw [← eurl, ← eid]
            · rw [← eurl]
              interval_cases step <;>
                simp [next_url_for_step, STEP_TO_PAGE]
            · rw [← est, ← eid]; simp [upd]
            · exact eid
      · simp only [hok, Bool.not_false, if_true] at e
        simp at e

/-- Witness for the amended C5: saving step 0 on a fresh booking returns the
hint for the first wizard page. -/
theorem c5_witness :
    (0 : ℕ) ≤ 4 ∧
      (some ("/booking1.html?booking_id=1") : Option String)
          = next_url_for_step 0 1 ∧
        (some ("/booking1.html?booking_id=1") : Option String).isSome ∧
      ∃ b2, (save_step none 0 none (some (.num 3)) st0).1.bookings 1 = some b2 ∧
        b2.id = 1 ∧ b2.total_amount = 0 :=
  c5_next_hint none 0 none (some (.num 3)) st0 1 0
    (some ("/booking1.html?booking_id=1"))
    (by
      norm_num [save_step, get_or_create, truthyId, attach_to_user, writeSlot, upd,
        recompute_total, priceContrib, addonsContrib, orEmptyDict, truthy, lookupKey,
        floatOrZero, floatOfVal, sumVals, round2, roundHalfEven, next_url_for_step,
        STEP_TO_PAGE, st0, Booking.new]
      rfl)

/-! ### C9 — anonymous callers are not blocked by ownership -/

lemma attach_self (u : Option ℕ) (st : Store) (b : Booking)
    (h : b.user_id = u) : attach_to_user u st b = (st, b, true) := by
  cases u with
  | none => rfl
  | some uid => simp [attach_to_user, h]

lemma slotOf_recompute (step : ℕ) (b : Booking) :
    slotOf step (recompute_total b) = slotOf step b := by
  unfold slotOf recompute_total
  split_ifs <;> rfl

lemma writeSlot_slotOf (step : ℕ) (hstep : step ≤ 4) (b : Booking)
    (d : Option JVal) :
    ∃ b3, writeSlot step b d = some b3 ∧ slotOf step b3 = d ∧
      b3.user_id = b.user_id ∧ b3.id = b.id ∧ b3.status = b.status := by
  interval_cases step <;>
    exact ⟨_, rfl, rfl, rfl, rfl, rfl⟩

/-- **C9.** The ownership check rejects only authenticated non-owners: an
anonymous call to `save_step` on a booking already bound to user `a`
does not fail with the ownership error — it succeeds, overwrites the
addressed slot, and recomputes and persists the total, leaving the owner
bound. -/
theorem c9_anonymous_not_blocked (st : Store) (i a step : ℕ) (b : Booking)
    (data : Option JVal)
    (hb : st.bookings i = some b) (hid : b.id = i) (hi : i ≠ 0)
    (ha : b.user_id = some a) (hstep : step ≤ 4) :
    ∃ b2 t url,
      (save_step none step (some i) data st).2 = .ok i t url ∧
      (save_step none step (some i) data st).1.bookings i = some b2 ∧
      slotOf step b2 = data ∧
      b2.total_amount = t ∧
      t = claimTotal b2.selection_data b2.addons_data ∧
      b2.user_id = some a := by
  have hgc : get_or_create none st (some i) = some (st, b) := by
    simp [get_or_create, truthyId, hi, hb]
  obtain ⟨b3, hw, hslot, huser, hid3, -⟩ := writeSlot_slotOf step hstep b data
  unfold save_step
  rw [hgc]
  dsimp only
  rw [attach_anon]
  dsimp only [Bool.not_true]
  rw [if_neg (by simp)]
  rw [hw]
  dsimp only
  refine ⟨recompute_total b3, (recompute_total b3).total_amount,
    next_url_for_step step (recompute_total b3).id, ?_, ?_, ?_, rfl, ?_, ?_⟩
  · simp [hid3, hid]
  · simp [upd, hid3, hid]
  · rw [slotOf_recompute]; exact hslot
  · exact recompute_total_amount b3
  · simp [huser, ha]

/-- Booking and store used by the C9 witness: booking 1 owned by user 7. -/
def b9 : Booking := { Booking.new 1 (some 7) with total_amount := 5 }

/-- Store holding only `b9`. -/
def st9 : Store := { st0 with bookings := upd st0.bookings 1 b9 }

/-- Witness for C9: an anonymous step-2 save on a booking owned by user 7
succeeds and stores the payload. -/
theorem c9_witness :
    ∃ b2 t url,
      (save_step none 2 (some 1) (some (.num 3)) st9).2 = .ok 1 t url ∧
      (save_step none 2 (some 1) (some (.num 3)) st9).1.bookings 1 = some b2 ∧
      slotOf 2 b2 = some (.num 3) ∧
      b2.total_amount = t ∧
      t = claimTotal b2.selection_data b2.addons_data ∧
      b2.user_id = some 7 :=
  c9_anonymous_not_blocked st9 1 7 2 b9 (some (.num 3))
    (by simp [st9, st0, upd]) rfl (by decide) rfl (by decide)

/-! ### C10 — invalid step is reported only after the draft is persisted -/

/-- **C10.** `save_step` with no booking id and an out-of-range step still
creates and commits a fresh draft before answering with the invalid-step
error: the store, empty at `nextId` beforehand, afterwards holds a new
draft booking there even though the call fails. -/
theorem c10_invalid_step_not_atomic (u : Option ℕ) (step : ℕ)
    (data : Option JVal) (st : Store)
    (hfresh : st.bookings st.nextId = none) (hstep : 5 ≤ step) :
    (save_step u step none data st).2 = .invalidStep ∧
      (save_step u step none data st).1.bookings st.nextId
          = some (Booking.new st.nextId u) ∧
      (Booking.new st.nextId u).status = .draft ∧
      (Booking.new st.nextId u).search_data = none ∧
      (Booking.new st.nextId u).selection_data = none ∧
      (Booking.new st.nextId u).travelers_data = none ∧
      (Booking.new st.nextId u).addons_data = none ∧
      (Booking.new st.nextId u).review_data = none := by
  have hgc : get_or_create u st none
      = some ({ st with
          bookings := upd st.bookings st.nextId (Booking.new st.nextId u),
          nextId := st.nextId + 1 }, Booking.new st.nextId u) := by
    simp [get_or_create, truthyId]
  have hw : writeSlot step (Booking.new st.nextId u) data = none := by
    unfold writeSlot
    split_ifs with h0 h1 h2 h3 h4 <;> first | omega | rfl
  unfold save_step
  rw [hgc]
  dsimp only
  rw [attach_self u _ _ rfl]
  dsimp only [Bool.not_true]
  rw [if_neg (by simp)]
  rw [hw]
  exact ⟨rfl, by simp [upd], rfl, rfl, rfl, rfl, rfl, rfl⟩

/-- Witness for C10: step 7 with no booking id on the empty store reports
the invalid step yet leaves a fresh draft in the store. -/
theorem c10_witness :
    (save_step (some 3) 7 none (some (.num 1)) st0).2 = .invalidStep ∧
      (save_step (some 3) 7 none (some (.num 1)) st0).1.bookings st0.nextId
          = some (Booking.new st0.nextId (some 3)) ∧
      (Booking.new st0.nextId (some 3)).status = .draft ∧
      (Booking.new st0.nextId (some 3)).search_data = none ∧
      (Booking.new st0.nextId (some 3)).selection_data = none ∧
      (Booking.new st0.nextId (some 3)).travelers_data = none ∧
      (Booking.new st0.nextId (some 3)).addons_data = none ∧
      (Booking.new st0.nextId (some 3)).review_data = none :=
  c10_invalid_step_not_atomic (some 3) 7 (some (.num 1)) st0 rfl (by decide)

/-! ### C6 — idempotence of `confirm` -/

@[simp] lemma upd_same (f : ℕ → Option Booking) (i : ℕ) (b : Booking) :
    upd f i b i = some b := by
  simp [upd]

lemma upd_other (f : ℕ → Option Booking) (i j : ℕ) (b : Booking)
    (h : j ≠ i) : upd f i b j = f j := by
  simp [upd, h]

lemma upd_upd (f : ℕ → Option Booking) (i : ℕ) (b1 b2 : Booking) :
    upd (upd f i b1) i b2 = upd f i b2 := by
  funext j
  unfold upd
  by_cases hj : j = i <;> simp [hj]

lemma upd_self (f : ℕ → Option Booking) (i : ℕ) (b : Booking)
    (h : f i = some b) : upd f i b = f := by
  funext j
  unfold upd
  by_cases hj : j = i <;> simp [hj, h]

lemma with_user_self (b : Booking) (u : ℕ) (h : b.user_id = some u) :
    ({ b with user_id := some u } : Booking) = b := by
  cases b
  simp_all

lemma with_status_self (b : Booking) (s : BStatus) (h : b.status = s) :
    ({ b with status := s } : Booking) = b := by
  cases b
  simp_all

lemma with_user_status_self (b : Booking) (u : ℕ) (s : BStatus)
    (hu : b.user_id = some u) (hs : b.status = s) :
    ({ b with user_id := some u, status := s } : Booking) = b := by
  cases b
  simp_all

lemma recompute_idem (b : Booking) :
    recompute_total (recompute_total b) = recompute_total b := rfl

/-- The booking persisted by a successful `confirm` call: owner bound to the
caller, status `in_progress`, total recomputed. -/
def inProgressOwned (u : ℕ) (b : Booking) : Booking :=
  recompute_total { b with user_id := some u, status := .in_progress }

/-- Closed form of a successful `confirm` call: the booking (owned by the
caller, or bound to the caller on the way) is re-persisted with status
`in_progress` and a freshly recomputed total. -/
lemma confirm_spec (u i : ℕ) (st : Store) (b : Booking)
    (hb : st.bookings i = some b) (hid : b.id = i)
    (hown : b.user_id = none ∨ b.user_id = some u) :
    confirm_booking u (some i) st
      = ({ st with bookings := upd st.bookings i (inProgressOwned u b) },
         .ok i (inProgressOwned u b).total_amount
           ("/checkout.html?booking_id=" ++ toString i)) := by
  have hbind : (some i).bind st.bookings = some b := hb
  rcases hown with h | h
  · unfold confirm_booking
    rw [hbind]
    dsimp only
    rw [attach_unowned u st b h]
    dsimp only [Bool.not_true]
    rw [if_neg (by simp)]
    simp only [recompute_id, upd_upd]
    unfold inProgressOwned
    rw [hid]
  · unfold confirm_booking
    rw [hbind]
    dsimp only
    rw [attach_owned u u st b h]
    dsimp only
    rw [if_neg (by simp)]
    unfold inProgressOwned
    rw [h]
    simp only [recompute_id]
    rw [hid]

/-- **C6.** `confirm` is idempotent: on a booking the caller may confirm,
the first call answers `in_progress` with the recomputed total, and a second
call answers the same id, the same total and the same hint, leaves the
stored status at `in_progress`, and changes the store not at all. -/
theorem c6_confirm_idempotent (u i : ℕ) (st : Store) (b : Booking)
    (hb : st.bookings i = some b) (hid : b.id = i)
    (hown : b.user_id = none ∨ b.user_id = some u) :
    ∃ t url,
      (confirm_booking u (some i) st).2 = .ok i t url ∧
      statusAt (confirm_booking u (some i) st).1 i = some .in_progress ∧
      (confirm_booking u (some i) ((confirm_booking u (some i) st).1)).2
          = .ok i t url ∧
      (confirm_booking u (some i) ((confirm_booking u (some i) st).1)).1
          = (confirm_booking u (some i) st).1 := by
  have e1 := confirm_spec u i st b hb hid hown
  have hbC_user : (inProgressOwned u b).user_id = some u := rfl
  have hbC_status : (inProgressOwned u b).status = BStatus.in_progress := rfl
  have hbC_id : (inProgressOwned u b).id = i := by
    unfold inProgressOwned
    simpa using hid
  have hlook : (confirm_booking u (some i) st).1.bookings i
      = some (inProgressOwned u b) := by
    rw [e1]
    simp
  have e2 := confirm_spec u i (confirm_booking u (some i) st).1
    (inProgressOwned u b) hlook hbC_id (Or.inr hbC_user)
  have hfix : inProgressOwned u (inProgressOwned u b) = inProgressOwned u b := by
    have h1 : ({ inProgressOwned u b with
        user_id := some u, status := BStatus.in_progress } : Booking)
          = inProgressOwned u b :=
      with_user_status_self _ u _ hbC_user hbC_status
    show recompute_total { inProgressOwned u b with
      user_id := some u, status := BStatus.in_progress } = inProgressOwned u b
    rw [h1]
    exact recompute_idem _
  refine ⟨(inProgressOwned u b).total_amount,
    "/checkout.html?booking_id=" ++ toString i, ?_, ?_, ?_, ?_⟩
  · rw [e1]
  · rw [e1]
    simp [statusAt, hbC_status]
  · rw [e2, hfix]
  · rw [e2]
    rw [hfix, upd_self _ _ _ hlook]

/-- Witness for C6: confirming booking 1 (owned by user 7) twice answers the
same total twice and leaves the store untouched the second time. -/
theorem c6_witness :
    ∃ t url,
      (confirm_booking 7 (some 1) st9).2 = .ok 1 t url ∧
      statusAt (confirm_booking 7 (some 1) st9).1 1 = some .in_progress ∧
      (confirm_booking 7 (some 1) ((confirm_booking 7 (some 1) st9).1)).2
          = .ok 1 t url ∧
      (confirm_booking 7 (some 1) ((confirm_booking 7 (some 1) st9).1)).1
          = (confirm_booking 7 (some 1) st9).1 :=
  c6_confirm_idempotent 7 1 st9 b9 (by simp [st9, st0, upd]) rfl (Or.inr rfl)

/-! ### C2 — terminal statuses and the unguarded `confirm` -/

lemma writeSlot_fields (step : ℕ) (b b3 : Booking) (d : Option JVal)
    (h : writeSlot step b d = some b3) :
    b3.status = b.status ∧ b3.id = b.id ∧ b3.user_id = b.user_id := by
  unfold writeSlot at h
  split_ifs at h
  all_goals (cases h)
  all_goals exact ⟨rfl, rfl, rfl⟩

/-- In every case, the store after `_attach_to_current_user_if_needed` holds
the attached booking at the original id, with unchanged status, slots and
total, and with payments untouched. -/
lemma attach_statusAt (u : Option ℕ) (st : Store) (b : Booking) (i : ℕ)
    (hb : st.bookings i = some b) (hid : b.id = i) :
    (attach_to_user u st b).1.bookings i = some ((attach_to_user u st b).2.1) ∧
      ((attach_to_user u st b).2.1).status = b.status ∧
      ((attach_to_user u st b).2.1).id = i ∧
      ((attach_to_user u st b).2.1).selection_data = b.selection_data ∧
      ((attach_to_user u st b).2.1).addons_data = b.addons_data ∧
      (attach_to_user u st b).1.payments = st.payments := by
  cases u with
  | none => simp [attach_to_user, hb, hid]
  | some uid =>
      by_cases h : b.user_id.isNone
      · simp [attach_to_user, h, upd, hid, hb]
      · simp [attach_to_user, h, hb, hid]

lemma save_step_statusAt (u : Option ℕ) (step i : ℕ) (data : Option JVal)
    (st : Store) (b : Booking)
    (hb : st.bookings i = some b) (hid : b.id = i) (hi : i ≠ 0) :
    statusAt ((save_step u step (some i) data st).1) i = some b.status := by
  have hgc : get_or_create u st (some i) = some (st, b) := by
    simp [get_or_create, truthyId, hi, hb]
  obtain ⟨hb1, hs1, hid1, -, -, -⟩ := attach_statusAt u st b i hb hid
  unfold save_step
  rw [hgc]
  dsimp only
  cases hok : (attach_to_user u st b).2.2 with
  | false =>
      simp [statusAt, hb1, hs1]
  | true =>
      simp only [Bool.not_true, Bool.false_eq_true, if_false]
      cases hw : writeSlot step (attach_to_user u st b).2.1 data with
      | none =>
          dsimp only
          simp [statusAt, hb1, hs1]
      | some b3 =>
          dsimp only
          obtain ⟨hs3, hid3, -⟩ := writeSlot_fields _ _ _ _ hw
          simp [statusAt, upd, hid3, hid1, hs3, hs1]

lemma cpi_statusAt (u i : ℕ) (c : ℤ → Except String Intent) (st : Store)
    (b : Booking) (hb : st.bookings i = some b) (hid : b.id = i) :
    statusAt ((create_payment_intent u (some i) c st).1) i = some b.status := by
  have hbind : (some i).bind st.bookings = some b := hb
  obtain ⟨hb1, hs1, hid1, -, -, -⟩ := attach_statusAt (some u) st b i hb hid
  unfold create_payment_intent
  rw [hbind]
  dsimp only
  cases hok : (attach_to_user (some u) st b).2.2 with
  | false =>
      simp [statusAt, hb1, hs1]
  | true =>
      simp only [Bool.not_true, Bool.false_eq_true, if_false]
      cases hc : c (pyInt ((recompute_total (attach_to_user (some u) st b).2.1).total_amount * 100)) with
      | ok intent =>
          dsimp only
          simp [statusAt, hb1, hs1]
      | error e =>
          dsimp only
          simp [statusAt, hb1, hs1]

lemma pay_statusAt (u i : ℕ) (iid : String)
    (r c : String → Except String Intent) (st : Store) (b : Booking)
    (hb : st.bookings i = some b) (hid : b.id = i) :
    statusAt ((pay u (some i) iid r c st).1) i = some b.status ∨
      statusAt ((pay u (some i) iid r c st).1) i = some .confirmed := by
  have hbind : (some i).bind st.bookings = some b := hb
  obtain ⟨hb1, hs1, hid1, -, -, -⟩ := attach_statusAt (some u) st b i hb hid
  unfold pay
  rw [hbind]
  dsimp only
  cases hok : (attach_to_user (some u) st b).2.2 with
  | false =>
      left
      simp [statusAt, hb1, hs1]
  | true =>
      simp only [Bool.not_true, Bool.false_eq_true, if_false]
      cases hr : r iid with
      | error e =>
          dsimp only
          left
          simp [statusAt, hb1, hs1]
      | ok intent0 =>
          dsimp only
          by_cases hrc : intent0.istatus == "requires_confirmation"
          · rw [if_pos hrc]
            cases hc : c iid with
            | error e =>
                dsimp only [Except.map]
                left
                simp [statusAt, hb1, hs1]
            | ok intent =>
                dsimp only [Except.map]
                by_cases hsix : intent.istatus != "succeeded"
                · rw [if_pos hsix]
                  left
                  simp [statusAt, hb1, hs1]
                · rw [if_neg hsix]
                  by_cases hamt : intent.amount
                      != pyInt ((recompute_total (attach_to_user (some u) st b).2.1).total_amount * 100)
                  · rw [if_pos hamt]
                    left
                    simp [statusAt, hb1, hs1]
                  · rw [if_neg hamt]
                    right
                    simp [statusAt, upd, hid1]
          · rw [if_neg hrc]
            by_cases hsx : intent0.istatus == "succeeded"
            · rw [if_pos hsx]
              dsimp only
              by_cases hsix : intent0.istatus != "succeeded"
              · rw [if_pos hsix]
                left
                simp [statusAt, hb1, hs1]
              · rw [if_neg hsix]
                by_cases hamt : intent0.amount
                    != pyInt ((recompute_total (attach_to_user (some u) st b).2.1).total_amount * 100)
                · rw [if_pos hamt]
                  left
                  simp [statusAt, hb1, hs1]
                · rw [if_neg hamt]
                  right
                  simp [statusAt, upd, hid1]
            · rw [if_neg hsx]
              dsimp only
              left
              simp [statusAt, hb1, hs1]

lemma cancel_statusAt (u i : ℕ) (st : Store) (b : Booking)
    (hb : st.bookings i = some b) (hid : b.id = i) :
    statusAt ((cancel u (some i) st).1) i = some b.status ∨
      statusAt ((cancel u (some i) st).1) i = some .cancelled := by
  have hbind : (some i).bind st.bookings = some b := hb
  obtain ⟨hb1, hs1, hid1, -, -, -⟩ := attach_statusAt (some u) st b i hb hid
  unfold cancel
  rw [hbind]
  dsimp only
  cases hok : (attach_to_user (some u) st b).2.2 with
  | false =>
      left
      simp [statusAt, hb1, hs1]
  | true =>
      simp only [Bool.not_true, Bool.false_eq_true, if_false]
      right
      simp [statusAt, upd, hid1]

/-- Booking used by the C2 counterexample: booking 1, owned by user 1,
already `confirmed`. -/
def b2x : Booking := { Booking.new 1 (some 1) with status := .confirmed }

/-- Store holding only `b2x`. -/
def st2x : Store := { st0 with bookings := upd st0.bookings 1 b2x }

/-- Counterexample to C2 as stated: invoking `confirm` on booking 1, which
is already in the terminal status `confirmed`, moves its status back to
`in_progress`. -/
theorem c2_counterexample :
    statusAt st2x 1 = some .confirmed ∧
      statusAt (confirm_booking 1 (some 1) st2x).1 1 = some .in_progress := by
  refine ⟨rfl, ?_⟩
  have h := confirm_spec 1 1 st2x b2x (by simp [st2x, st0, upd]) rfl (Or.inr rfl)
  rw [h]
  simp [statusAt]
  rfl

/-- **C2 (amended).** Once a booking's status is `confirmed` or `cancelled`,
none of `save_step`, `create_payment_intent`, `confirm_payment` and `cancel`
ever moves it back to `draft` or `in_progress`; `confirm`, however, performs
no terminal-state check and unconditionally sets the status to
`in_progress`, so the claim's inclusion of `confirm` fails. -/
theorem c2_no_revival_except_confirm (st : Store) (i : ℕ) (b : Booking)
    (hb : st.bookings i = some b) (hid : b.id = i) (hi : i ≠ 0)
    (hterm : b.status = .confirmed ∨ b.status = .cancelled) :
    (∀ u step data,
        statusAt ((save_step u step (some i) data st).1) i ≠ some .draft ∧
        statusAt ((save_step u step (some i) data st).1) i ≠ some .in_progress) ∧
    (∀ u c,
        statusAt ((create_payment_intent u (some i) c st).1) i ≠ some .draft ∧
        statusAt ((create_payment_intent u (some i) c st).1) i ≠ some .in_progress) ∧
    (∀ u iid r c,
        statusAt ((pay u (some i) iid r c st).1) i ≠ some .draft ∧
        statusAt ((pay u (some i) iid r c st).1) i ≠ some .in_progress) ∧
    (∀ u,
        statusAt ((cancel u (some i) st).1) i ≠ some .draft ∧
        statusAt ((cancel u (some i) st).1) i ≠ some .in_progress) ∧
    (∀ u, b.user_id = none ∨ b.user_id = some u →
        statusAt ((confirm_booking u (some i) st).1) i = some .in_progress) := by
  refine ⟨?_, ?_, ?_, ?_, ?_⟩
  · intro u step data
    have h := save_step_statusAt u step i data st b hb hid hi
    rw [h]
    rcases hterm with ht | ht <;> rw [ht] <;> exact ⟨by simp, by simp⟩
  · intro u c
    have h := cpi_statusAt u i c st b hb hid
    rw [h]
    rcases hterm with ht | ht <;> rw [ht] <;> exact ⟨by simp, by simp⟩
  · intro u iid r c
    have h := pay_statusAt u i iid r c st b hb hid
    rcases h with h | h <;> rw [h]
    · rcases hterm with ht | ht <;> rw [ht] <;> exact ⟨by simp, by simp⟩
    · exact ⟨by simp, by simp⟩
  · intro u
    have h := cancel_statusAt u i st b hb hid
    rcases h with h | h <;> rw [h]
    · rcases hterm with ht | ht <;> rw [ht] <;> exact ⟨by simp, by simp⟩
    · exact ⟨by simp, by simp⟩
  · intro u hown
    have h := confirm_spec u i st b hb hid hown
    rw [h]
    simp [statusAt]
    rfl

/-- Witness for the amended C2, at the confirmed booking `b2x`. -/
theorem c2_witness :
    (∀ u step data,
        statusAt ((save_step u step (some 1) data st2x).1) 1 ≠ some .draft ∧
        statusAt ((save_step u step (some 1) data st2x).1) 1 ≠ some .in_progress) ∧
    (∀ u c,
        statusAt ((create_payment_intent u (some 1) c st2x).1) 1 ≠ some .draft ∧
        statusAt ((create_payment_intent u (some 1) c st2x).1) 1 ≠ some .in_progress) ∧
    (∀ u iid r c,
        statusAt ((pay u (some 1) iid r c st2x).1) 1 ≠ some .draft ∧
        statusAt ((pay u (some 1) iid r c st2x).1) 1 ≠ some .in_progress) ∧
    (∀ u,
        statusAt ((cancel u (some 1) st2x).1) 1 ≠ some .draft ∧
        statusAt ((cancel u (some 1) st2x).1) 1 ≠ some .in_progress) ∧
    (∀ u, b2x.user_id = none ∨ b2x.user_id = some u →
        statusAt ((confirm_booking u (some 1) st2x).1) 1 = some .in_progress) :=
  c2_no_revival_except_confirm st2x 1 b2x (by simp [st2x, st0, upd]) rfl
    (by decide) (Or.inl rfl)

/-! ### C4 — ownership binding is permanent -/

/-- On a booking already bound to `a`, `_attach_to_current_user_if_needed`
mutates nothing, whoever calls. -/
lemma attach_ownerAt (u : Option ℕ) (st : Store) (b : Booking) (a : ℕ)
    (ha : b.user_id = some a) :
    (attach_to_user u st b).1 = st ∧ (attach_to_user u st b).2.1 = b := by
  cases u with
  | none => exact ⟨rfl, rfl⟩
  | some uid =>
      rw [attach_owned uid a st b ha]
      exact ⟨rfl, rfl⟩

/-- **C4.** Ownership binding is one-directional and permanent: with booking
`i` bound to user `a`, every operation addressed to `i` — by any caller —
leaves the stored owner equal to `a`; and every operation invoked by an
authenticated user `uB ≠ a` fails with the ownership error and leaves the
whole store unchanged. -/
theorem c4_ownership_permanent (st : Store) (i a : ℕ) (b : Booking)
    (hb : st.bookings i = some b) (hid : b.id = i) (hi : i ≠ 0)
    (ha : b.user_id = some a) :
    ((∀ u step data, ∃ b2,
        (save_step u step (some i) data st).1.bookings i = some b2 ∧
          b2.user_id = some a) ∧
      (∀ u, ∃ b2,
        (confirm_booking u (some i) st).1.bookings i = some b2 ∧
          b2.user_id = some a) ∧
      (∀ u c, ∃ b2,
        (create_payment_intent u (some i) c st).1.bookings i = some b2 ∧
          b2.user_id = some a) ∧
      (∀ u iid r c, ∃ b2,
        (pay u (some i) iid r c st).1.bookings i = some b2 ∧
          b2.user_id = some a) ∧
      (∀ u, ∃ b2,
        (cancel u (some i) st).1.bookings i = some b2 ∧
          b2.user_id = some a)) ∧
    (∀ uB, uB ≠ a →
      (∀ step data, save_step (some uB) step (some i) data st
          = (st, .forbidden)) ∧
      confirm_booking uB (some i) st = (st, .forbidden) ∧
      (∀ c, create_payment_intent uB (some i) c st = (st, .forbidden)) ∧
      (∀ iid r c, pay uB (some i) iid r c st = (st, .forbidden)) ∧
      cancel uB (some i) st = (st, .forbidden)) := by
  have hbind : (some i).bind st.bookings = some b := hb
  constructor
  · refine ⟨?_, ?_, ?_, ?_, ?_⟩
    · intro u step data
      have hgc : get_or_create u st (some i) = some (st, b) := by
        simp [get_or_create, truthyId, hi, hb]
      obtain ⟨hst, hbk⟩ := attach_ownerAt u st b a ha
      unfold save_step
      rw [hgc]
      dsimp only
      rw [hst, hbk]
      cases hok : (attach_to_user u st b).2.2 with
      | false => exact ⟨b, by simp [hb], ha⟩
      | true =>
          simp only [Bool.not_true, Bool.false_eq_true, if_false]
          cases hw : writeSlot step b data with
          | none => exact ⟨b, by simp [hb], ha⟩
          | some b3 =>
              dsimp only
              obtain ⟨-, hid3, hu3⟩ := writeSlot_fields _ _ _ _ hw
              refine ⟨recompute_total b3, ?_, ?_⟩
              · simp [upd, hid3, hid]
              · simp [hu3, ha]
    · intro u
      obtain ⟨hst, hbk⟩ := attach_ownerAt (some u) st b a ha
      unfold confirm_booking
      rw [hbind]
      dsimp only
      rw [hst, hbk]
      cases hok : (attach_to_user (some u) st b).2.2 with
      | false => exact ⟨b, by simp [hb], ha⟩
      | true =>
          simp only [Bool.not_true, Bool.false_eq_true, if_false]
          refine ⟨recompute_total { b with status := .in_progress }, ?_, ?_⟩
          · have : (recompute_total { b with status := BStatus.in_progress }).id
                = i := hid
            simp [upd, this, hid]
          · simp [ha]
    · intro u c
      obtain ⟨hst, hbk⟩ := attach_ownerAt (some u) st b a ha
      unfold create_payment_intent
      rw [hbind]
      dsimp only
      rw [hst, hbk]
      cases hok : (attach_to_user (some u) st b).2.2 with
      | false => exact ⟨b, by simp [hb], ha⟩
      | true =>
          simp only [Bool.not_true, Bool.false_eq_true, if_false]
          cases hc : c (pyInt ((recompute_total b).total_amount * 100)) with
          | ok intent => exact ⟨b, by simp [hb], ha⟩
          | error e => exact ⟨b, by simp [hb], ha⟩
    · intro u iid r c
      obtain ⟨hst, hbk⟩ := attach_ownerAt (some u) st b a ha
      unfold pay
      rw [hbind]
      dsimp only
      rw [hst, hbk]
      cases hok : (attach_to_user (some u) st b).2.2 with
      | false => exact ⟨b, by simp [hb], ha⟩
      | true =>
          simp only [Bool.not_true, Bool.false_eq_true, if_false]
          cases hr : r iid with
          | error e => exact ⟨b, by simp [hb], ha⟩
          | ok intent0 =>
              dsimp only
              by_cases hrc : intent0.istatus == "requires_confirmation"
              · rw [if_pos hrc]
                cases hc : c iid with
                | error e => exact ⟨b, by simp [Except.map, hb], ha⟩
                | ok intent =>
                    dsimp only [Except.map]
                    by_cases hsix : intent.istatus != "succeeded"
                    · rw [if_pos hsix]
                      exact ⟨b, by simp [hb], ha⟩
                    · rw [if_neg hsix]
                      by_cases hamt : intent.amount
                          != pyInt ((recompute_total b).total_amount * 100)
                      · rw [if_pos hamt]
                        exact ⟨b, by simp [hb], ha⟩
                      · rw [if_neg hamt]
                        refine ⟨{ recompute_total b with status := .confirmed },
                          ?_, ?_⟩
                        · have : ({ recompute_total b with
                              status := BStatus.confirmed }).id = i := hid
                          simp [upd, this, hid]
                        · simp [ha]
              · rw [if_neg hrc]
                by_cases hsx : intent0.istatus == "succeeded"
                · rw [if_pos hsx]
                  dsimp only
                  by_cases hsix : intent0.istatus != "succeeded"
                  · rw [if_pos hsix]
                    exact ⟨b, by simp [hb], ha⟩
                  · rw [if_neg hsix]
                    by_cases hamt : intent0.amount
                        != pyInt ((recompute_total b).total_amount * 100)
                    · rw [if_pos hamt]
                      exact ⟨b, by simp [hb], ha⟩
                    · rw [if_neg hamt]
                      refine ⟨{ recompute_total b with status := .confirmed },
                        ?_, ?_⟩
                      · have : ({ recompute_total b with
                            status := BStatus.confirmed }).id = i := hid
                        simp [upd, this, hid]
                      · simp [ha]
                · rw [if_neg hsx]
                  dsimp only
                  exact ⟨b, by simp [hb], ha⟩
    · intro u
      obtain ⟨hst, hbk⟩ := attach_ownerAt (some u) st b a ha
      unfold cancel
      rw [hbind]
      dsimp only
      rw [hst, hbk]
      cases hok : (attach_to_user (some u) st b).2.2 with
      | false => exact ⟨b, by simp [hb], ha⟩
      | true =>
          simp only [Bool.not_true, Bool.false_eq_true, if_false]
          refine ⟨{ b with status := .cancelled }, ?_, ?_⟩
          · have : ({ b with status := BStatus.cancelled }).id = i := hid
            simp [upd, this, hid]
          · simp [ha]
  · intro uB hne
    have hatt : attach_to_user (some uB) st b = (st, b, false) := by
      rw [attach_owned uB a st b ha]
      simp [Ne.symm hne]
    have hcond : (!(false : Bool)) = true := by simp
    refine ⟨?_, ?_, ?_, ?_, ?_⟩
    · intro step data
      have hgc : get_or_create (some uB) st (some i) = some (st, b) := by
        simp [get_or_create, truthyId, hi, hb]
      unfold save_step
      rw [hgc]
      dsimp only
      rw [hatt]
      rfl
    · unfold confirm_booking
      rw [hbind]
      dsimp only
      rw [hatt]
      rfl
    · intro c
      unfold create_payment_intent
      rw [hbind]
      dsimp only
      rw [hatt]
      rfl
    · intro iid r c
      unfold pay
      rw [hbind]
      dsimp only
      rw [hatt]
      rfl
    · unfold cancel
      rw [hbind]
      dsimp only
      rw [hatt]
      rfl

/-- Witness for C4 at booking 1 bound to user 7, with user 8 as the
rejected other caller. -/
theorem c4_witness :
    ((∀ u step data, ∃ b2,
        (save_step u step (some 1) data st9).1.bookings 1 = some b2 ∧
          b2.user_id = some 7) ∧
      (∀ u, ∃ b2,
        (confirm_booking u (some 1) st9).1.bookings 1 = some b2 ∧
          b2.user_id = some 7) ∧
      (∀ u c, ∃ b2,
        (create_payment_intent u (some 1) c st9).1.bookings 1 = some b2 ∧
          b2.user_id = some 7) ∧
      (∀ u iid r c, ∃ b2,
        (pay u (some 1) iid r c st9).1.bookings 1 = some b2 ∧
          b2.user_id = some 7) ∧
      (∀ u, ∃ b2,
        (cancel u (some 1) st9).1.bookings 1 = some b2 ∧
          b2.user_id = some 7)) ∧
    (∀ uB, uB ≠ 7 →
      (∀ step data, save_step (some uB) step (some 1) data st9
          = (st9, .forbidden)) ∧
      confirm_booking uB (some 1) st9 = (st9, .forbidden) ∧
      (∀ c, create_payment_intent uB (some 1) c st9 = (st9, .forbidden)) ∧
      (∀ iid r c, pay uB (some 1) iid r c st9 = (st9, .forbidden)) ∧
      cancel uB (some 1) st9 = (st9, .forbidden)) :=
  c4_ownership_permanent st9 1 7 b9 (by simp [st9, st0, upd]) rfl
    (by decide) rfl

/-! ### C3, C7, C8 — the payment endpoint -/

lemma attach_ok_of_own (u : ℕ) (st : Store) (b : Booking)
    (hown : b.user_id = none ∨ b.user_id = some u) :
    (attach_to_user (some u) st b).2.2 = true := by
  rcases hown with h | h
  · rw [attach_unowned u st b h]
  · rw [attach_owned u u st b h]
    simp

lemma attach_misc (u : Option ℕ) (st : Store) (b : Booking) :
    (attach_to_user u st b).1.payments = st.payments ∧
      (attach_to_user u st b).1.nextPaymentId = st.nextPaymentId ∧
      ((attach_to_user u st b).2.1).selection_data = b.selection_data ∧
      ((attach_to_user u st b).2.1).addons_data = b.addons_data ∧
      ((attach_to_user u st b).2.1).id = b.id := by
  cases u with
  | none => exact ⟨rfl, rfl, rfl, rfl, rfl⟩
  | some uid => by_cases h : b.user_id.isNone <;> simp [attach_to_user, h]

lemma recompute_congr (b1 b2 : Booking)
    (hsel : b1.selection_data = b2.selection_data)
    (had : b1.addons_data = b2.addons_data) :
    (recompute_total b1).total_amount = (recompute_total b2).total_amount := by
  simp [recompute_total, hsel, had]

/-- Counterexample to C3 as stated, at the reachable total `0.29`.  The
binary64 double nearest `0.29` (binade `[2 ^ (-2), 2 ^ (-1))`, grid scale
54) is `d = 5224175567749775 / 2 ^ 54`; rounding `d` to two decimals gives
exactly `29 / 100`, whose nearest double is again `d`, so `round(total, 2)`
stores `d` itself; the double product `total * 100` (binade `[16, 32)`,
grid scale 48) is `8162774324609023 / 2 ^ 48 = 28.999…96`.  The code's
minor-unit conversion `int(total * 100)` therefore yields 28 while
`round(total * 100)` yields 29: the conversion does not agree with
`round(total * 100)` at this representable total, refuting the claim's
equivalence. -/
theorem c3_counterexample :
    flAt 54 (29 / 100) = 5224175567749775 / 2 ^ 54 ∧
      (5224175567749775 : ℤ) < 2 ^ 53 ∧
      round2 (5224175567749775 / 2 ^ 54) = 29 / 100 ∧
      flAt 48 (5224175567749775 / 2 ^ 54 * 100) = 8162774324609023 / 2 ^ 48 ∧
      pyInt (flAt 48 (5224175567749775 / 2 ^ 54 * 100)) = 28 ∧
      roundHalfEven (flAt 48 (5224175567749775 / 2 ^ 54 * 100)) = 29 ∧
      pyInt (flAt 48 (5224175567749775 / 2 ^ 54 * 100))
          ≠ roundHalfEven (flAt 48 (5224175567749775 / 2 ^ 54 * 100)) := by
  refine ⟨?_, by norm_num, ?_, ?_, ?_, ?_, ?_⟩ <;>
    norm_num [flAt, round2, roundHalfEven, pyInt]

/-- **C3 (amended).** For every booking and every intent that reaches the
amount check in the `succeeded` state — whether retrieved as already
succeeded or brought there by the `requires_confirmation` confirm branch —
`confirm_payment` fails with amount-mismatch exactly when the intent's
charged minor-unit amount differs from the code's own conversion
`int(total_amount * 100)` (truncation toward zero), with strict integer
equality and no tolerance.  That conversion does not agree with
`round(total * 100)` at all reachable binary64 totals (see
the counterexample at total `0.29`). -/
theorem c3_mismatch_iff_int (u i : ℕ) (iid : String)
    (r c : String → Except String Intent) (st : Store) (b : Booking)
    (it : Intent)
    (hb : st.bookings i = some b) (hid : b.id = i)
    (hown : b.user_id = none ∨ b.user_id = some u)
    (hpath : (r iid = .ok it ∧ it.istatus = "succeeded") ∨
      (∃ it0, r iid = .ok it0 ∧ it0.istatus = "requires_confirmation" ∧
        c iid = .ok it ∧ it.istatus = "succeeded")) :
    (pay u (some i) iid r c st).2 = .amountMismatch ↔
      it.amount ≠ pyInt ((recompute_total b).total_amount * 100) := by
  have hbind : (some i).bind st.bookings = some b := hb
  have hok := attach_ok_of_own u st b hown
  obtain ⟨-, -, hsel, had, -⟩ := attach_misc (some u) st b
  have htotA : (recompute_total (attach_to_user (some u) st b).2.1).total_amount
      = (recompute_total b).total_amount := recompute_congr _ _ hsel had
  rcases hpath with ⟨hr, hs⟩ | ⟨it0, hr, hrc, hc, hs⟩
  · unfold pay
    rw [hbind]
    dsimp only
    rw [hok]
    simp only [Bool.not_true, Bool.false_eq_true, if_false]
    rw [hr]
    dsimp only
    rw [if_neg (by rw [hs]; decide), if_pos (by rw [hs]; decide)]
    dsimp only
    rw [if_neg (by rw [hs]; decide)]
    rw [htotA]
    by_cases hamt : it.amount = pyInt ((recompute_total b).total_amount * 100)
    · rw [if_neg (by simp [hamt])]
      constructor
      · intro hcontra
        simp at hcontra
      · intro hcontra
        exact absurd hamt hcontra
    · rw [if_pos (by simp [hamt])]
      exact ⟨fun _ => hamt, fun _ => rfl⟩
  · unfold pay
    rw [hbind]
    dsimp only
    rw [hok]
    simp only [Bool.not_true, Bool.false_eq_true, if_false]
    rw [hr]
    dsimp only
    rw [if_pos (by rw [hrc]; decide)]
    rw [hc]
    dsimp only [Except.map]
    rw [if_neg (by rw [hs]; decide)]
    rw [htotA]
    by_cases hamt : it.amount = pyInt ((recompute_total b).total_amount * 100)
    · rw [if_neg (by simp [hamt])]
      constructor
      · intro hcontra
        simp at hcontra
      · intro hcontra
        exact absurd hamt hcontra
    · rw [if_pos (by simp [hamt])]
      exact ⟨fun _ => hamt, fun _ => rfl⟩

/-- Succeeded intent with a zero amount, matching an empty booking's total. -/
def itMatch : Intent :=
  { iid := "pi_1", istatus := "succeeded", amount := 0, client_secret := "cs_1" }

/-- Succeeded intent whose amount 50000 matches no total in the stores used
here. -/
def itBad : Intent :=
  { iid := "pi_2", istatus := "succeeded", amount := 50000, client_secret := "cs_2" }

/-- Processor stub returning `itBad` for every id. -/
def rBad : String → Except String Intent := fun _ => .ok itBad

/-- Witness for the amended C3 at booking 1 (total 0) and a succeeded intent
charging 50000 minor units. -/
theorem c3_witness :
    (pay 7 (some 1) ("pi_2") rBad rBad st9).2 = .amountMismatch ↔
      itBad.amount ≠ pyInt ((recompute_total b9).total_amount * 100) :=
  c3_mismatch_iff_int 7 1 ("pi_2") rBad rBad st9 b9 itBad
    (by simp [st9, st0, upd]) rfl (Or.inr rfl) (Or.inl ⟨rfl, rfl⟩)

/-- The `Payment` row inserted by a successful `pay` call. -/
def payRow (st : Store) (b : Booking) (ref : String) : Payment :=
  { pid := st.nextPaymentId
    booking_id := b.id
    amount := b.total_amount
    pstatus := "success"
    provider := "stripe"
    txn_ref := ref }

/-- A booking with its status set to `confirmed`. -/
def asConfirmed (b : Booking) : Booking :=
  { b with status := .confirmed }

/-- **C7.** On every successful `confirm_payment` — the intent finally in
the `succeeded` state, whether retrieved that way or brought there by the
`requires_confirmation` confirm branch, and the amounts equal — exactly one
`Payment` row is appended, carrying the recomputed booking total as its
amount, the final intent's provider id as its transaction reference and the
success status; the booking's status becomes `confirmed` with that same
persisted total; and the response carries the payment id, the transaction
reference and the dashboard hint. -/
theorem c7_success_payment (u i : ℕ) (iid : String)
    (r c : String → Except String Intent) (st : Store) (b : Booking)
    (pid : ℕ) (ref : String) (i2 : ℕ) (url : String)
    (hb : st.bookings i = some b) (hid : b.id = i)
    (h : (pay u (some i) iid r c st).2 = .ok pid ref i2 url) :
    ∃ p it,
      (pay u (some i) iid r c st).1.payments = st.payments ++ [p] ∧
      p.amount = (recompute_total b).total_amount ∧
      p.txn_ref = it.iid ∧ ref = it.iid ∧ p.pstatus = "success" ∧
      p.pid = pid ∧ p.booking_id = i ∧ i2 = i ∧
      it.istatus = "succeeded" ∧
      (r iid = .ok it ∨
        ∃ it0, r iid = .ok it0 ∧ it0.istatus = "requires_confirmation" ∧
          c iid = .ok it) ∧
      statusAt (pay u (some i) iid r c st).1 i = some .confirmed ∧
      (∃ b2, (pay u (some i) iid r c st).1.bookings i = some b2 ∧
        b2.total_amount = (recompute_total b).total_amount) ∧
      url = "/dashboard.html?booking_id=" ++ toString i := by
  have hbind : (some i).bind st.bookings = some b := hb
  obtain ⟨hpay1, hnpi, hsel, had, hidA⟩ := attach_misc (some u) st b
  have htotA : (recompute_total (attach_to_user (some u) st b).2.1).total_amount
      = (recompute_total b).total_amount := recompute_congr _ _ hsel had
  have hidA2 : (attach_to_user (some u) st b).2.1.id = i := by rw [hidA, hid]
  set A := attach_to_user (some u) st b with hA
  have hrc2 : (recompute_total A.2.1).id = i := by simp [hidA2]
  unfold pay at h ⊢
  rw [hbind] at h ⊢
  dsimp only at h ⊢
  rw [← hA] at h ⊢
  cases hok : A.2.2 with
  | false => rw [hok] at h; simp at h
  | true =>
      rw [hok] at h
      simp only [Bool.not_true, Bool.false_eq_true, if_false] at h ⊢
      cases hr : r iid with
      | error e => rw [hr] at h; simp at h
      | ok it0 =>
          rw [hr] at h
          dsimp only at h ⊢
          by_cases hq : (it0.istatus == "requires_confirmation") = true
          · rw [if_pos hq] at h ⊢
            cases hc : c iid with
            | error e => rw [hc] at h; simp [Except.map] at h
            | ok it =>
                rw [hc] at h
                dsimp only [Except.map] at h ⊢
                by_cases hsix : (it.istatus != "succeeded") = true
                · rw [if_pos hsix] at h
                  simp at h
                · rw [if_neg hsix] at h ⊢
                  have hsucc : it.istatus = "succeeded" := by
                    simpa using hsix
                  by_cases hamt : (it.amount
                      != pyInt ((recompute_total A.2.1).total_amount * 100)) = true
                  · rw [if_pos hamt] at h
                    simp at h
                  · rw [if_neg hamt] at h ⊢
                    simp only [PayResult.ok.injEq] at h
                    obtain ⟨hpid, href, hi2, hurl⟩ := h
                    refine ⟨payRow A.1 (recompute_total A.2.1) it.iid, it,
                      ?_, htotA, rfl, href.symm, rfl, hpid, hrc2, ?_, hsucc,
                      Or.inr ⟨it0, rfl, by simpa using hq, rfl⟩, ?_, ?_, ?_⟩
                    · dsimp only
                      rw [hpay1]
                      rfl
                    · rw [← hi2]
                      exact hrc2
                    · dsimp only
                      simp [statusAt, upd, hidA2, hrc2]
                    · refine ⟨asConfirmed (recompute_total A.2.1), ?_, htotA⟩
                      dsimp only
                      simp [upd, hidA2, hrc2, asConfirmed]
                    · rw [← hurl, hrc2]
          · rw [if_neg hq] at h ⊢
            by_cases hsx : (it0.istatus == "succeeded") = true
            · rw [if_pos hsx] at h ⊢
              dsimp only at h ⊢
              have hsucc : it0.istatus = "succeeded" := by
                simpa using hsx
              by_cases hsix : (it0.istatus != "succeeded") = true
              · rw [if_pos hsix] at h
                simp at h
              · rw [if_neg hsix] at h ⊢
                by_cases hamt : (it0.amount
                    != pyInt ((recompute_total A.2.1).total_amount * 100)) = true
                · rw [if_pos hamt] at h
                  simp at h
                · rw [if_neg hamt] at h ⊢
                  simp only [PayResult.ok.injEq] at h
                  obtain ⟨hpid, href, hi2, hurl⟩ := h
                  refine ⟨payRow A.1 (recompute_total A.2.1) it0.iid, it0,
                    ?_, htotA, rfl, href.symm, rfl, hpid, hrc2, ?_, hsucc,
                    Or.inl rfl, ?_, ?_, ?_⟩
                  · dsimp only
                    rw [hpay1]
                    rfl
                  · rw [← hi2]
                    exact hrc2
                  · dsimp only
                    simp [statusAt, upd, hidA2, hrc2]
                  · refine ⟨asConfirmed (recompute_total A.2.1), ?_, htotA⟩
                    dsimp only
                    simp [upd, hidA2, hrc2, asConfirmed]
                  · rw [← hurl, hrc2]
            · rw [if_neg hsx] at h
              dsimp only at h
              simp at h

/-- Intent that still requires confirmation, used by the C7 witness to
exercise the confirm branch. -/
def itPending : Intent :=
  { iid := "pi_1", istatus := "requires_confirmation", amount := 0,
    client_secret := "cs_1" }

/-- Retrieval stub: every id retrieves as `itPending`. -/
def rPending : String → Except String Intent := fun _ => .ok itPending

/-- Confirmation stub: confirming yields the succeeded `itMatch`. -/
def cMatch : String → Except String Intent := fun _ => .ok itMatch

/-- Witness for C7: booking 1 (total 0) paid through the
`requires_confirmation` branch — the intent retrieves as pending, confirms
to the succeeded zero-amount `itMatch`, and one success payment is
persisted while the booking becomes `confirmed`. -/
theorem c7_witness :
    ∃ p it,
      (pay 7 (some 1) ("pi_1") rPending cMatch st9).1.payments
          = st9.payments ++ [p] ∧
      p.amount = (recompute_total b9).total_amount ∧
      p.txn_ref = it.iid ∧ ("pi_1" : String) = it.iid ∧
      p.pstatus = "success" ∧ p.pid = 1 ∧ p.booking_id = 1 ∧ (1 : ℕ) = 1 ∧
      it.istatus = "succeeded" ∧
      (rPending ("pi_1") = .ok it ∨
        ∃ it0, rPending ("pi_1") = .ok it0 ∧
          it0.istatus = "requires_confirmation" ∧ cMatch ("pi_1") = .ok it) ∧
      statusAt (pay 7 (some 1) ("pi_1") rPending cMatch st9).1 1
          = some .confirmed ∧
      (∃ b2, (pay 7 (some 1) ("pi_1") rPending cMatch st9).1.bookings 1
            = some b2 ∧
          b2.total_amount = (recompute_total b9).total_amount) ∧
      ("/dashboard.html?booking_id=1" : String)
          = "/dashboard.html?booking_id=" ++ toString (1 : ℕ) :=
  c7_success_payment 7 1 ("pi_1") rPending cMatch st9 b9 1 ("pi_1") 1
    ("/dashboard.html?booking_id=1") (by simp [st9, st0, upd]) rfl
    (by
      norm_num [pay, attach_to_user, upd, recompute_total, priceContrib,
        addonsContrib, orEmptyDict, truthy, lookupKey, floatOrZero, floatOfVal,
        sumVals, round2, roundHalfEven, pyInt, rPending, itPending, cMatch,
        itMatch, st9, b9, st0, Booking.new]
      rfl)

/-- **C8.** When `confirm_payment` fails with the amount-mismatch error, no
`Payment` row is created and the stored booking's status is exactly what it
was before the call. -/
theorem c8_mismatch_atomic (u i : ℕ) (iid : String)
    (r c : String → Except String Intent) (st : Store) (b : Booking)
    (hb : st.bookings i = some b) (hid : b.id = i)
    (h : (pay u (some i) iid r c st).2 = .amountMismatch) :
    (pay u (some i) iid r c st).1.payments = st.payments ∧
      statusAt (pay u (some i) iid r c st).1 i = some b.status := by
  have hbind : (some i).bind st.bookings = some b := hb
  obtain ⟨hb1, hs1, hid1, -, -, hpayA⟩ := attach_statusAt (some u) st b i hb hid
  unfold pay at h ⊢
  rw [hbind] at h ⊢
  dsimp only at h ⊢
  cases hok : (attach_to_user (some u) st b).2.2 with
  | false => rw [hok] at h; simp at h
  | true =>
      rw [hok] at h
      simp only [Bool.not_true, Bool.false_eq_true, if_false] at h ⊢
      cases hr : r iid with
      | error e => rw [hr] at h; simp at h
      | ok intent0 =>
          rw [hr] at h
          dsimp only at h ⊢
          by_cases hrc : (intent0.istatus == "requires_confirmation") = true
          · rw [if_pos hrc] at h ⊢
            cases hc : c iid with
            | error e => rw [hc] at h; simp [Except.map] at h
            | ok intent =>
                rw [hc] at h
                dsimp only [Except.map] at h ⊢
                by_cases hsix : (intent.istatus != "succeeded") = true
                · rw [if_pos hsix] at h; simp at h
                · rw [if_neg hsix] at h ⊢
                  by_cases hamt : (intent.amount
                      != pyInt ((recompute_total (attach_to_user (some u) st b).2.1).total_amount * 100)) = true
                  · rw [if_pos hamt] at h ⊢
                    exact ⟨hpayA, by simp [statusAt, hb1, hs1]⟩
                  · rw [if_neg hamt] at h; simp at h
          · rw [if_neg hrc] at h ⊢
            by_cases hsx : (intent0.istatus == "succeeded") = true
            · rw [if_pos hsx] at h ⊢
              dsimp only at h ⊢
              by_cases hsix : (intent0.istatus != "succeeded") = true
              · rw [if_pos hsix] at h; simp at h
              · rw [if_neg hsix] at h ⊢
                by_cases hamt : (intent0.amount
                    != pyInt ((recompute_total (attach_to_user (some u) st b).2.1).total_amount * 100)) = true
                · rw [if_pos hamt] at h ⊢
                  exact ⟨hpayA, by simp [statusAt, hb1, hs1]⟩
                · rw [if_neg hamt] at h; simp at h
            · rw [if_neg hsx] at h; dsimp only at h; simp at h

/-- Witness for C8: paying booking 1 (total 0) with a succeeded intent
charging 50000 answers amount-mismatch, appends no payment and leaves the
status as it was. -/
theorem c8_witness :
    (pay 7 (some 1) ("pi_2") rBad rBad st9).1.payments = st9.payments ∧
      statusAt (pay 7 (some 1) ("pi_2") rBad rBad st9).1 1 = some b9.status :=
  c8_mismatch_atomic 7 1 ("pi_2") rBad rBad st9 b9 (by simp [st9, st0, upd]) rfl
    (by
      norm_num [pay, attach_to_user, upd, recompute_total, priceContrib,
        addonsContrib, orEmptyDict, truthy, lookupKey, floatOrZero, floatOfVal,
        sumVals, round2, roundHalfEven, pyInt, rBad, itBad, st9, b9, st0,
        Booking.new]
      rfl)

end Zyra
